import Mathlib

/-!
Verification of the QR-code detection-and-replacement pipeline of a
PDF/image QR-code replacement application.

The development shallowly embeds the pipeline code:

* the coordinate mapping between raster pixel space at a detection or
  render scale and the native unit space of the document
  (the extraction code divides detected pixel geometry by the detection
  scale; the preview code multiplies stored native geometry by the render
  scale);
* the jsQR-based page scanner with its padded white-out suppression loop;
* the ZXing-based page scanner with its min/max bounding box, unpadded
  fillRect suppression and exception-based loop exit;
* the jsPDF page assembly of the replacement output document;
* the batch file processing and the JSON settings import of the UI shell.

JavaScript numbers are modelled as exact rationals; pixel buffers
(ImageData) as a width, a height and a flattened RGBA byte store.
-/

namespace QrPdf

/-- A rectangle given by its top-left corner and its dimensions, the
geometry carried by a QrCodeLocation record. -/
structure Rect where
  x : ℚ
  y : ℚ
  width : ℚ
  height : ℚ
deriving DecidableEq, Repr

/-- Mapping from raster pixel space at scale `s` back to native unit
space, as performed by the extraction code
(location x / scale, y / scale, width / scale, height / scale). -/
def toNative (r : Rect) (s : ℚ) : Rect :=
  ⟨r.x / s, r.y / s, r.width / s, r.height / s⟩

/-- Mapping from native unit space to raster pixel space at scale `s`,
as performed by the preview code (drawImage at x * 1.5, y * 1.5 with
dimensions scaled by 1.5). -/
def toPixelsAtScale (r : Rect) (s : ℚ) : Rect :=
  ⟨r.x * s, r.y * s, r.width * s, r.height * s⟩

/-- A point in raster pixel space, as returned by a detector
(a jsQR corner or a ZXing result point). -/
structure Point where
  x : ℚ
  y : ℚ
deriving DecidableEq, Repr

/-- The four corner points reported by the jsQR detector
(code.location). -/
structure JsQrLocation where
  topLeftCorner : Point
  topRightCorner : Point
  bottomLeftCorner : Point
  bottomRightCorner : Point
deriving DecidableEq, Repr

/-- A jsQR detection result: decoded payload text and the four corner
points. -/
structure JsQrCode where
  data : String
  location : JsQrLocation
deriving DecidableEq, Repr

/-- A marker record produced by extraction (the QrCodeInfo interface of
types.ts).  The id string and the cropped preview data URL are produced
by external canvas encoding and are not modelled. -/
structure QrCodeInfo where
  data : String
  location : Rect
  pageNumber : ℕ
  pageWidth : ℚ
  pageHeight : ℚ
deriving DecidableEq, Repr

/-! ### Geometry computed by the jsQR scanner

The jsQR extraction code takes `x, y` from the top-left corner and
computes `qrWidth = topRightCorner.x - x`,
`qrHeight = bottomLeftCorner.y - y`, uses that box for the crop and the
recorded geometry, and uses a padded min/max box over all four corners
for suppression. -/

/-- Crop-box x of the jsQR scanner: the top-left corner x. -/
def jsqrCropX (loc : JsQrLocation) : ℚ := loc.topLeftCorner.x

/-- Crop-box y of the jsQR scanner: the top-left corner y. -/
def jsqrCropY (loc : JsQrLocation) : ℚ := loc.topLeftCorner.y

/-- Crop-box width of the jsQR scanner:
`topRightCorner.x - topLeftCorner.x`. -/
def jsqrCropWidth (loc : JsQrLocation) : ℚ :=
  loc.topRightCorner.x - loc.topLeftCorner.x

/-- Crop-box height of the jsQR scanner:
`bottomLeftCorner.y - topLeftCorner.y`. -/
def jsqrCropHeight (loc : JsQrLocation) : ℚ :=
  loc.bottomLeftCorner.y - loc.topLeftCorner.y

/-- The geometry recorded in a marker record by the jsQR scanner: the
crop box with every component divided by the detection scale. -/
def jsqrRecordedLocation (loc : JsQrLocation) (scale : ℚ) : Rect :=
  ⟨jsqrCropX loc / scale, jsqrCropY loc / scale,
    jsqrCropWidth loc / scale, jsqrCropHeight loc / scale⟩

/-- Minimum x over the four jsQR corner points (Math.min of the four
corner x coordinates in the suppression step). -/
def jsqrFourMinX (loc : JsQrLocation) : ℚ :=
  min (min loc.topLeftCorner.x loc.topRightCorner.x)
    (min loc.bottomLeftCorner.x loc.bottomRightCorner.x)

/-- Maximum x over the four jsQR corner points. -/
def jsqrFourMaxX (loc : JsQrLocation) : ℚ :=
  max (max loc.topLeftCorner.x loc.topRightCorner.x)
    (max loc.bottomLeftCorner.x loc.bottomRightCorner.x)

/-- Minimum y over the four jsQR corner points. -/
def jsqrFourMinY (loc : JsQrLocation) : ℚ :=
  min (min loc.topLeftCorner.y loc.topRightCorner.y)
    (min loc.bottomLeftCorner.y loc.bottomRightCorner.y)

/-- Maximum y over the four jsQR corner points. -/
def jsqrFourMaxY (loc : JsQrLocation) : ℚ :=
  max (max loc.topLeftCorner.y loc.topRightCorner.y)
    (max loc.bottomLeftCorner.y loc.bottomRightCorner.y)

/-- The fixed padding the jsQR scanner adds around the suppression box
(const padding = 10). -/
def suppressionPadding : ℤ := 10

/-- Left edge of the jsQR suppression box:
`Math.floor(min of the four corner xs) - padding`. -/
def jsqrSuppXLo (loc : JsQrLocation) : ℤ :=
  ⌊jsqrFourMinX loc⌋ - suppressionPadding

/-- Right edge (exclusive) of the jsQR suppression box:
`Math.ceil(max of the four corner xs) + padding`. -/
def jsqrSuppXHi (loc : JsQrLocation) : ℤ :=
  ⌈jsqrFourMaxX loc⌉ + suppressionPadding

/-- Top edge of the jsQR suppression box. -/
def jsqrSuppYLo (loc : JsQrLocation) : ℤ :=
  ⌊jsqrFourMinY loc⌋ - suppressionPadding

/-- Bottom edge (exclusive) of the jsQR suppression box. -/
def jsqrSuppYHi (loc : JsQrLocation) : ℤ :=
  ⌈jsqrFourMaxY loc⌉ + suppressionPadding

/-! ### Geometry computed by the ZXing scanner

The ZXing extraction code computes min/max over all result points
(Math.min/Math.max over resultPoints.map getX / getY) and uses that box
for the crop, the recorded geometry and the (unpadded) suppression. -/

/-- Fold-based minimum of a seed and a list of rationals (Math.min over
a spread argument list). -/
def listMinQ (a : ℚ) (l : List ℚ) : ℚ := l.foldl min a

/-- Fold-based maximum of a seed and a list of rationals. -/
def listMaxQ (a : ℚ) (l : List ℚ) : ℚ := l.foldl max a

/-- `Math.min(...resultPoints.map(p => p.getX()))`.  ZXing always
returns at least one result point; the empty case is unreachable. -/
def zxMinX : List Point → ℚ
  | [] => 0
  | p :: rest => listMinQ p.x (rest.map Point.x)

/-- `Math.max(...resultPoints.map(p => p.getX()))`. -/
def zxMaxX : List Point → ℚ
  | [] => 0
  | p :: rest => listMaxQ p.x (rest.map Point.x)

/-- `Math.min(...resultPoints.map(p => p.getY()))`. -/
def zxMinY : List Point → ℚ
  | [] => 0
  | p :: rest => listMinQ p.y (rest.map Point.y)

/-- `Math.max(...resultPoints.map(p => p.getY()))`. -/
def zxMaxY : List Point → ℚ
  | [] => 0
  | p :: rest => listMaxQ p.y (rest.map Point.y)

/-- `qrWidth = maxX - minX` in the ZXing scanner. -/
def zxQrWidth (pts : List Point) : ℚ := zxMaxX pts - zxMinX pts

/-- `qrHeight = maxY - minY` in the ZXing scanner. -/
def zxQrHeight (pts : List Point) : ℚ := zxMaxY pts - zxMinY pts

/-- The geometry recorded by the ZXing PDF scanner: the min/max box
divided by the detection scale. -/
def zxRecordedLocation (pts : List Point) (scale : ℚ) : Rect :=
  ⟨zxMinX pts / scale, zxMinY pts / scale,
    zxQrWidth pts / scale, zxQrHeight pts / scale⟩

/-- The geometry recorded by the ZXing standalone-image scanner: the
min/max box in raw image pixels (no scale division). -/
def zxImageRecordedLocation (pts : List Point) : Rect :=
  ⟨zxMinX pts, zxMinY pts, zxQrWidth pts, zxQrHeight pts⟩

/-! ### Pixel buffers and the two suppression implementations -/

/-- A rasterized page buffer (an ImageData / canvas backing store): a
width and height in pixels and a flattened RGBA byte store, four bytes
per pixel, row-major. -/
structure ImageData where
  width : ℕ
  height : ℕ
  data : ℕ → ℕ

/-- Write 255 into the R, G and B bytes at a pixel start index, leaving
the alpha byte and all other bytes unchanged (the three assignments
`data[pixelIndex] = 255` and so on in the jsQR white-out). -/
def setChannelsWhite (d : ℕ → ℕ) (pixelIndex : ℕ) : ℕ → ℕ :=
  fun n =>
    if n = pixelIndex ∨ n = pixelIndex + 1 ∨ n = pixelIndex + 2 then 255
    else d n

/-- One iteration of the inner jsQR white-out loop body: skip the pixel
if out of bounds, otherwise whiten its RGB bytes at
`(yPixel * width + xPixel) * 4`. -/
def whiteOutPixel (img : ImageData) (xPixel yPixel : ℤ) : ImageData :=
  if xPixel < 0 ∨ (img.width : ℤ) ≤ xPixel ∨ yPixel < 0 ∨ (img.height : ℤ) ≤ yPixel then
    img
  else
    { img with
      data := setChannelsWhite img.data ((yPixel.toNat * img.width + xPixel.toNat) * 4) }

/-- The integers from `lo` (inclusive) to `hi` (exclusive), the index
sequence of a `for (v = lo; v < hi; v++)` loop. -/
def intRange (lo hi : ℤ) : List ℤ :=
  (List.range (hi - lo).toNat).map (fun k : ℕ => lo + (k : ℤ))

/-- The inner loop of the jsQR white-out: whiten row `y` from `minX` to
`maxX` (exclusive). -/
def whiteOutRow (img : ImageData) (y minX maxX : ℤ) : ImageData :=
  (intRange minX maxX).foldl (fun im x => whiteOutPixel im x y) img

/-- The jsQR white-out double loop over the padded box
`[minX, maxX) x [minY, maxY)`. -/
def whiteOutBox (img : ImageData) (minX maxX minY maxY : ℤ) : ImageData :=
  (intRange minY maxY).foldl (fun im y => whiteOutRow im y minX maxX) img

/-- The suppression the jsQR scanner performs after recording a marker:
white out the four-corner min/max box padded by 10 pixels on each
side. -/
def jsqrSuppress (img : ImageData) (loc : JsQrLocation) : ImageData :=
  whiteOutBox img (jsqrSuppXLo loc) (jsqrSuppXHi loc) (jsqrSuppYLo loc) (jsqrSuppYHi loc)

/-- Whether pixel `p` (linear index) of a `w x h` canvas intersects the
axis-aligned rectangle at `(rx, ry)` with size `rw x rh`: the canvas
rasterizer touches exactly the pixels whose unit square meets the
rectangle. -/
def pixelTouched (w h : ℕ) (rx ry rw rh : ℚ) (p : ℕ) : Bool :=
  decide (p < w * h) &&
    decide (rx < ((p % w : ℕ) : ℚ) + 1) && decide (((p % w : ℕ) : ℚ) < rx + rw) &&
    decide (ry < ((p / w : ℕ) : ℚ) + 1) && decide (((p / w : ℕ) : ℚ) < ry + rh)

/-- `ctx.fillRect(rx, ry, rw, rh)` with a white fill style: every byte
of every pixel meeting the rectangle becomes 255; all other pixels are
unchanged. -/
def fillRectWhite (img : ImageData) (rx ry rw rh : ℚ) : ImageData :=
  { img with
    data := fun n =>
      if pixelTouched img.width img.height rx ry rw rh (n / 4) then 255 else img.data n }

/-- The suppression the ZXing scanners perform after recording a
marker: `ctx.fillRect(minX, minY, qrWidth, qrHeight)` with white fill —
the unpadded min/max box. -/
def zxSuppress (img : ImageData) (pts : List Point) : ImageData :=
  fillRectWhite img (zxMinX pts) (zxMinY pts) (zxQrWidth pts) (zxQrHeight pts)

/-! ### The jsQR per-page scan loop -/

/-- The marker record the jsQR scanner pushes for a detection on page
`pageNumber` scanned at `scale` on a raster of pixel dimensions
`pw x ph`: geometry and page dimensions scaled back to native units. -/
def jsqrRecord (code : JsQrCode) (pageNumber : ℕ) (scale pw ph : ℚ) : QrCodeInfo :=
  ⟨code.data, jsqrRecordedLocation code.location scale, pageNumber, pw / scale, ph / scale⟩

/-- The jsQR per-page scan loop, with an explicit fuel argument in
place of the unbounded `while (true)`.  The Boolean is `true` when the
loop exited through the detector reporting no marker (the code's
`break`), and `false` only when the fuel ran out first; the
termination theorem shows fuel `nonWhiteCount img + 1` always
suffices, so the unbounded source loop terminates. -/
def scanPageJsqr (D : ImageData → Option JsQrCode) (pageNumber : ℕ) (scale pw ph : ℚ) :
    ℕ → ImageData → List QrCodeInfo × Bool
  | 0, _ => ([], false)
  | fuel + 1, img =>
    match D img with
    | none => ([], true)
    | some code =>
      let rest := scanPageJsqr D pageNumber scale pw ph fuel (jsqrSuppress img code.location)
      (jsqrRecord code pageNumber scale pw ph :: rest.1, rest.2)

/-- Whether pixel `p` (linear index) of `img` is not pure white in its
RGB bytes. -/
def pixelNonWhite (img : ImageData) (p : ℕ) : Prop :=
  ¬(img.data (p * 4) = 255 ∧ img.data (p * 4 + 1) = 255 ∧ img.data (p * 4 + 2) = 255)

instance (img : ImageData) (p : ℕ) : Decidable (pixelNonWhite img p) := by
  unfold pixelNonWhite
  infer_instance

/-- The set of non-white pixels of a buffer, the measure that shrinks
at every suppression step. -/
def nonWhitePixels (img : ImageData) : Finset ℕ :=
  (Finset.range (img.width * img.height)).filter (fun p => pixelNonWhite img p)

/-- The number of non-white pixels of a buffer. -/
def nonWhiteCount (img : ImageData) : ℕ := (nonWhitePixels img).card

/-- The property justifying termination of the scan loop: whenever the
detector reports a marker, the suppression box of that marker contains
at least one in-bounds pixel that is not yet white (a real detector
only finds markers in regions that still contain dark modules). -/
def DetectorProgress (D : ImageData → Option JsQrCode) : Prop :=
  ∀ img code, D img = some code →
    ∃ x y : ℤ,
      jsqrSuppXLo code.location ≤ x ∧ x < jsqrSuppXHi code.location ∧
      jsqrSuppYLo code.location ≤ y ∧ y < jsqrSuppYHi code.location ∧
      0 ≤ x ∧ x < (img.width : ℤ) ∧ 0 ≤ y ∧ y < (img.height : ℤ) ∧
      pixelNonWhite img (y.toNat * img.width + x.toNat)

/-! ### The ZXing scan loop, as an interaction trace

The ZXing scanner calls `codeReader.decodeFromCanvas(canvas)` in a
`while (true)` loop; the external reader either returns a result,
throws `NotFoundException`, or throws some other error.  The loop is
embedded over the finite sequence of outcomes the external reader
produces across the successive calls (each call sees the canvas blanked
by the previous suppressions). -/

/-- One outcome of a `decodeFromCanvas` call. -/
inductive DetectOutcome where
  | found (text : String) (points : List Point)
  | notFound
  | error
deriving DecidableEq, Repr

/-- The marker record the ZXing PDF scanner pushes for a detection. -/
def zxRecord (text : String) (pts : List Point) (pageNumber : ℕ) (scale pw ph : ℚ) :
    QrCodeInfo :=
  ⟨text, zxRecordedLocation pts scale, pageNumber, pw / scale, ph / scale⟩

/-- The ZXing per-page scan loop over an outcome trace.  A found result
is recorded and the loop continues; `NotFoundException` breaks the
loop; any other error is logged to the console and likewise breaks the
loop — the returned list is all the caller receives in either case. -/
def zxScanPageTrace (pageNumber : ℕ) (scale pw ph : ℚ) :
    List DetectOutcome → List QrCodeInfo
  | [] => []
  | DetectOutcome.notFound :: _ => []
  | DetectOutcome.error :: _ => []
  | DetectOutcome.found t pts :: rest =>
    zxRecord t pts pageNumber scale pw ph :: zxScanPageTrace pageNumber scale pw ph rest

/-- One page of a document as seen by the ZXing scanner: the outcome
trace its detector calls produce and the rendered pixel dimensions of
its viewport. -/
structure ZxPage where
  outcomes : List DetectOutcome
  pixelWidth : ℚ
  pixelHeight : ℚ

/-- The page loop of the ZXing extraction, numbering pages from `i`. -/
def zxExtractAux (scale : ℚ) : ℕ → List ZxPage → List QrCodeInfo
  | _, [] => []
  | i, pg :: rest =>
    zxScanPageTrace i scale pg.pixelWidth pg.pixelHeight pg.outcomes ++
      zxExtractAux scale (i + 1) rest

/-- extractQrCodesFromPdf (ZXing variant): scan every page in order,
pages numbered from 1, collecting all records. -/
def zxExtractFromPdf (scale : ℚ) (pages : List ZxPage) : List QrCodeInfo :=
  zxExtractAux scale 1 pages

/-- The marker record the ZXing standalone-image scanner pushes:
page number 1, raw pixel geometry, raw image dimensions. -/
def zxImageRecord (text : String) (pts : List Point) (w h : ℚ) : QrCodeInfo :=
  ⟨text, zxImageRecordedLocation pts, 1, w, h⟩

/-- extractQrCodesFromImage: the single-page ZXing scan loop on the
image canvas, geometry kept in raw image pixels. -/
def zxExtractFromImage (w h : ℚ) : List DetectOutcome → List QrCodeInfo
  | [] => []
  | DetectOutcome.notFound :: _ => []
  | DetectOutcome.error :: _ => []
  | DetectOutcome.found t pts :: rest =>
    zxImageRecord t pts w h :: zxExtractFromImage w h rest

/-! ### Replacement output assembly (replaceQrCodeInPdf) -/

/-- A jsPDF page orientation. -/
inductive Orientation where
  | landscape
  | portrait
deriving DecidableEq, Repr

/-- The orientation argument the code computes:
`width > height ? 'l' : 'p'`. -/
def jsPdfOrientation (w h : ℚ) : Orientation :=
  if h < w then Orientation.landscape else Orientation.portrait

/-- The format and orientation of one page of the assembled output
document. -/
structure PageSpec where
  width : ℚ
  height : ℚ
  orientation : Orientation
deriving DecidableEq, Repr

/-- The page specs of the document assembled by replaceQrCodeInPdf:
the jsPDF constructor creates the first page from the dimensions stored
in the marker being replaced (`qrToReplace.pageWidth/pageHeight`), and
the loop calls addPage with the rendered viewport dimensions of pages
2..n (`if (i > 1) newPdf.addPage([viewport.width, viewport.height], ...)`). -/
def replaceOutputPageSpecs (qr : QrCodeInfo) (viewports : List (ℚ × ℚ)) : List PageSpec :=
  ⟨qr.pageWidth, qr.pageHeight, jsPdfOrientation qr.pageWidth qr.pageHeight⟩ ::
    (viewports.drop 1).map (fun vp => ⟨vp.1, vp.2, jsPdfOrientation vp.1 vp.2⟩)

/-- The page specs the original document would require: one page per
viewport with that page's own dimensions and orientation. -/
def originalPageSpecs (viewports : List (ℚ × ℚ)) : List PageSpec :=
  viewports.map (fun vp => ⟨vp.1, vp.2, jsPdfOrientation vp.1 vp.2⟩)

/-- The rectangle into which replaceQrCodeInPdf draws the new marker:
`ctx.drawImage(newQrImg, location.x, location.y, customization.size,
customization.size)` — the stored size is used directly as the drawn
width and height. -/
def replaceDrawRect (loc : Rect) (size : ℚ) : Rect :=
  ⟨loc.x, loc.y, size, size⟩

/-! ### Batch file processing (App.handleFileChange) -/

/-- The facts about an uploaded file the processing logic inspects. -/
structure FileDesc where
  name : String
  mimeType : String
  lastModified : ℕ
deriving DecidableEq, Repr

/-- A successfully processed file: the file, its extracted markers and
its session id. -/
structure ProcessedFile where
  file : FileDesc
  qrCodes : List QrCodeInfo
  id : String
deriving DecidableEq, Repr

/-- The session id of a processed file:
name followed by a dash and the lastModified stamp. -/
def fileId (f : FileDesc) : String :=
  f.name ++ "-" ++ toString f.lastModified

/-- Character-wise lower-casing, the model of toLowerCase on file
names. -/
def jsToLower (s : String) : String :=
  String.mk (s.data.map Char.toLower)

/-- The PDF test of handleFileChange:
mime type application/pdf or a lower-cased name ending in .pdf. -/
def isPdfLike (f : FileDesc) : Bool :=
  f.mimeType = "application/pdf" || ".pdf".data.isSuffixOf (jsToLower f.name).data

/-- The image test of handleFileChange: mime type starting image/. -/
def isImageLike (f : FileDesc) : Bool :=
  "image/".data.isPrefixOf f.mimeType.data

/-- The unsupported-file rejection message (followed by the file
name). -/
def unsupportedTypeMsg : String := "Непідтримуваний тип файлу: "

/-- Processing of one file in the batch, with the per-format extractors
passed in as capabilities (extraction itself may also fail, modelled by
the Except result of the extractor). -/
def processOneFile (ePdf eImg : FileDesc → Except String (List QrCodeInfo))
    (f : FileDesc) : Except String ProcessedFile :=
  if isPdfLike f then
    (ePdf f).map (fun qrs => ⟨f, qrs, fileId f⟩)
  else if isImageLike f then
    (eImg f).map (fun qrs => ⟨f, qrs, fileId f⟩)
  else
    Except.error (unsupportedTypeMsg ++ f.name)

/-- The settlement pass over Promise.allSettled results: fulfilled
values are collected in order, each rejected entry contributes one
failure message of the form name: message. -/
def settleResults : List (FileDesc × Except String ProcessedFile) →
    List ProcessedFile × List String
  | [] => ([], [])
  | (f, r) :: rest =>
    let s := settleResults rest
    match r with
    | Except.ok v => (v :: s.1, s.2)
    | Except.error m => (s.1, (f.name ++ ": " ++ m) :: s.2)

/-- The batch pipeline of handleFileChange: process every file
independently, then settle the results into successes and failure
messages. -/
def processBatch (ePdf eImg : FileDesc → Except String (List QrCodeInfo))
    (files : List FileDesc) : List ProcessedFile × List String :=
  settleResults (files.map (fun f => (f, processOneFile ePdf eImg f)))

/-! ### JSON settings import (App.handleSettingsFileChange) -/

/-- A JavaScript number: a finite value or NaN (`typeof` calls both
number). -/
inductive JsNum where
  | num (q : ℚ)
  | nan
deriving DecidableEq, Repr

/-- A parsed JSON value. -/
inductive Json where
  | str (s : String)
  | num (v : JsNum)
  | bool (b : Bool)
  | null
  | arr (elems : List Json)
  | obj (fields : List (String × Json))

/-- JavaScript property access `value[key]`: a field lookup on an
object, undefined (none) otherwise. -/
def jget : Json → String → Option Json
  | Json.obj fields, k => (fields.find? (fun kv => kv.1 = k)).map Prod.snd
  | _, _ => none

/-- JavaScript truthiness of a value. -/
def jsTruthy : Json → Bool
  | Json.str s => !(s == "")
  | Json.num (JsNum.num q) => decide (q ≠ 0)
  | Json.num JsNum.nan => false
  | Json.bool b => b
  | Json.null => false
  | Json.arr _ => true
  | Json.obj _ => true

/-- Truthiness of a possibly-undefined value (undefined is falsy). -/
def jsTruthyOpt : Option Json → Bool
  | none => false
  | some v => jsTruthy v

/-- The JavaScript `typeof` operator on a possibly-undefined value. -/
def jsTypeofOpt : Option Json → String
  | none => "undefined"
  | some (Json.str _) => "string"
  | some (Json.num _) => "number"
  | some (Json.bool _) => "boolean"
  | some Json.null => "object"
  | some (Json.arr _) => "object"
  | some (Json.obj _) => "object"

/-- The settings-related in-memory state of the app: the current
customization record and the current error banner. -/
structure SettingsState where
  customization : Json
  errorMsg : Option String

/-- The settings-format rejection message. -/
def settingsFormatErrorMsg : String := "Невірний формат файлу налаштувань."

/-- The unreadable-settings-file message (JSON.parse or file read
threw). -/
def settingsReadErrorMsg : String := "Не вдалося прочитати файл налаштувань."

/-- The validation applied to an imported settings record:
`settings.color && settings.backgroundColor && typeof settings.size === 'number'`. -/
def validSettings (s : Json) : Bool :=
  jsTruthyOpt (jget s "color") && jsTruthyOpt (jget s "backgroundColor") &&
    (jsTypeofOpt (jget s "size") == "number")

/-- The reducer of handleSettingsFileChange on a parse attempt: a parse
failure reports the read error; a parsed record is accepted wholesale
into the customization state when the validation passes and otherwise
reported as a format error, leaving the customization unchanged. -/
def handleSettingsFileChange (st : SettingsState) (parsed : Option Json) : SettingsState :=
  match parsed with
  | none => { st with errorMsg := some settingsReadErrorMsg }
  | some s =>
    if validSettings s then { st with customization := s }
    else { st with errorMsg := some settingsFormatErrorMsg }

/-! ### Concrete inputs used by witnesses and counterexamples -/

/-- A jsQR detection of a marker rotated by 180 degrees: the corner
named topLeft by the symbology lands at the bottom right of the image,
so the named-corner differences are negative. -/
def rotatedLoc : JsQrLocation := ⟨⟨200, 200⟩, ⟨100, 200⟩, ⟨200, 100⟩, ⟨100, 100⟩⟩

/-- An upright jsQR detection. -/
def uprightLoc : JsQrLocation := ⟨⟨50, 50⟩, ⟨150, 50⟩, ⟨50, 150⟩, ⟨150, 150⟩⟩

/-- A tiny upright detection inside a 2 x 2 buffer. -/
def tinyLoc : JsQrLocation := ⟨⟨0, 0⟩, ⟨1, 0⟩, ⟨0, 1⟩, ⟨1, 1⟩⟩

/-- A 100 x 100 all-black canvas. -/
def canvas100 : ImageData := ⟨100, 100, fun _ => 0⟩

/-- A 2 x 2 all-black buffer. -/
def blackBuffer2 : ImageData := ⟨2, 2, fun _ => 0⟩

/-- Four ZXing result points spanning the box from (20, 20) to
(60, 60). -/
def squarePts : List Point := [⟨20, 20⟩, ⟨60, 20⟩, ⟨20, 60⟩, ⟨60, 60⟩]

/-- Two result points used by the min/max witness. -/
def pairPts : List Point := [⟨1, 2⟩, ⟨5, 3⟩]

/-- A detector stand-in that reports a marker at the origin for as long
as the first byte of the buffer is not yet white (and the buffer is
nonempty), as a real detector reports a marker while its dark modules
are still present. -/
def detectAtOrigin : ImageData → Option JsQrCode :=
  fun img =>
    if 0 < img.width ∧ 0 < img.height ∧ img.data 0 ≠ 255 then
      some ⟨"payload", tinyLoc⟩
    else
      none

/-- A found outcome used in the error-semantics examples. -/
def foundOutcome : DetectOutcome := DetectOutcome.found "qr-one" squarePts

/-- A marker record found on page 2 of a document whose second page is
800 x 600 landscape. -/
def qrOnPage2 : QrCodeInfo := ⟨"https://old.example", ⟨50, 50, 100, 100⟩, 2, 800, 600⟩

/-- A document with a 600 x 800 portrait first page and an 800 x 600
landscape second page. -/
def twoPageViewports : List (ℚ × ℚ) := [(600, 800), (800, 600)]

/-- A supported PDF file. -/
def filePdfA : FileDesc := ⟨"a.pdf", "application/pdf", 1⟩

/-- An unsupported plain-text file. -/
def fileTxtB : FileDesc := ⟨"b.txt", "text/plain", 2⟩

/-- A supported image file. -/
def filePngC : FileDesc := ⟨"c.png", "image/png", 3⟩

/-- A stub PDF extractor that always succeeds with no markers. -/
def stubPdfExtractor : FileDesc → Except String (List QrCodeInfo) :=
  fun _ => Except.ok []

/-- A stub image extractor that always succeeds with no markers. -/
def stubImgExtractor : FileDesc → Except String (List QrCodeInfo) :=
  fun _ => Except.ok []

/-- The default customization record the app starts with. -/
def initialCustomization : Json :=
  Json.obj
    [("color", Json.str "#000000"), ("backgroundColor", Json.str "#FFFFFF"),
      ("size", Json.num (JsNum.num 100))]

/-- The initial settings state. -/
def initialSettingsState : SettingsState := ⟨initialCustomization, none⟩

/-- An imported settings record that lacks the size field. -/
def settingsMissingSize : Json :=
  Json.obj [("color", Json.str "#ff0000"), ("backgroundColor", Json.str "#00ff00")]

/-- An imported settings record whose size is NaN and which carries an
extra field. -/
def settingsNanSize : Json :=
  Json.obj
    [("color", Json.str "#222222"), ("backgroundColor", Json.str "#dddddd"),
      ("size", Json.num JsNum.nan), ("legacy", Json.bool true)]

end QrPdf

namespace QrPdf

/-- C1: composing `toPixelsAtScale` with `toNative` at the same positive
scale is the identity on rectangles: the extraction code that divides
detected pixel geometry by the detection scale exactly inverts the
preview code that multiplies stored native geometry by the render
scale. -/
theorem toNative_toPixelsAtScale_roundTrip (r : Rect) (s : ℚ) (hs : 0 < s) :
    toNative (toPixelsAtScale r s) s = r := by
  have hs0 : s ≠ 0 := ne_of_gt hs
  cases r with
  | mk x y w h =>
    simp [toNative, toPixelsAtScale, mul_div_cancel_right₀, hs0]

/-- Witness for C1 at the rectangle (50, 50, 100, 100) and scale 3. -/
theorem toNative_toPixelsAtScale_roundTrip_witness :
    (0 : ℚ) < 3 ∧
      toNative (toPixelsAtScale ⟨50, 50, 100, 100⟩ 3) 3 = ⟨50, 50, 100, 100⟩ :=
  ⟨by norm_num, toNative_toPixelsAtScale_roundTrip ⟨50, 50, 100, 100⟩ 3 (by norm_num)⟩

/-! ### Properties of the fold-based min/max -/

theorem listMinQ_le_seed (l : List ℚ) : ∀ a : ℚ, listMinQ a l ≤ a := by
  induction l with
  | nil => intro a; exact le_refl a
  | cons b l ih =>
    intro a
    calc listMinQ a (b :: l) = listMinQ (min a b) l := rfl
      _ ≤ min a b := ih (min a b)
      _ ≤ a := min_le_left a b

theorem listMinQ_le_mem (l : List ℚ) :
    ∀ (a b : ℚ), b ∈ l → listMinQ a l ≤ b := by
  induction l with
  | nil => intro a b hb; cases hb
  | cons c l ih =>
    intro a b hb
    rcases List.mem_cons.mp hb with h | h
    · subst h
      calc listMinQ a (b :: l) = listMinQ (min a b) l := rfl
        _ ≤ min a b := listMinQ_le_seed l (min a b)
        _ ≤ b := min_le_right a b
    · exact ih (min a c) b h

theorem listMinQ_attained (l : List ℚ) :
    ∀ a : ℚ, listMinQ a l = a ∨ listMinQ a l ∈ l := by
  induction l with
  | nil => intro a; left; rfl
  | cons b l ih =>
    intro a
    rcases ih (min a b) with h | h
    · rcases min_cases a b with ⟨hm, _⟩ | ⟨hm, _⟩
      · left
        calc listMinQ a (b :: l) = listMinQ (min a b) l := rfl
          _ = min a b := h
          _ = a := hm
      · right
        apply List.mem_cons.mpr
        left
        calc listMinQ a (b :: l) = listMinQ (min a b) l := rfl
          _ = min a b := h
          _ = b := hm
    · right
      exact List.mem_cons.mpr (Or.inr h)

theorem listMaxQ_seed_le (l : List ℚ) : ∀ a : ℚ, a ≤ listMaxQ a l := by
  induction l with
  | nil => intro a; exact le_refl a
  | cons b l ih =>
    intro a
    calc a ≤ max a b := le_max_left a b
      _ ≤ listMaxQ (max a b) l := ih (max a b)
      _ = listMaxQ a (b :: l) := rfl

theorem listMaxQ_mem_le (l : List ℚ) :
    ∀ (a b : ℚ), b ∈ l → b ≤ listMaxQ a l := by
  induction l with
  | nil => intro a b hb; cases hb
  | cons c l ih =>
    intro a b hb
    rcases List.mem_cons.mp hb with h | h
    · subst h
      calc b ≤ max a b := le_max_right a b
        _ ≤ listMaxQ (max a b) l := listMaxQ_seed_le l (max a b)
        _ = listMaxQ a (b :: l) := rfl
    · exact ih (max a c) b h

theorem listMaxQ_attained (l : List ℚ) :
    ∀ a : ℚ, listMaxQ a l = a ∨ listMaxQ a l ∈ l := by
  induction l with
  | nil => intro a; left; rfl
  | cons b l ih =>
    intro a
    rcases ih (max a b) with h | h
    · rcases max_cases a b with ⟨hm, _⟩ | ⟨hm, _⟩
      · left
        calc listMaxQ a (b :: l) = listMaxQ (max a b) l := rfl
          _ = max a b := h
          _ = a := hm
      · right
        apply List.mem_cons.mpr
        left
        calc listMaxQ a (b :: l) = listMaxQ (max a b) l := rfl
          _ = max a b := h
          _ = b := hm
    · right
      exact List.mem_cons.mpr (Or.inr h)

theorem zxMinX_le_of_mem {pts : List Point} {p : Point} (hp : p ∈ pts) :
    zxMinX pts ≤ p.x := by
  cases pts with
  | nil => cases hp
  | cons q rest =>
    rcases List.mem_cons.mp hp with h | h
    · subst h
      exact listMinQ_le_seed (rest.map Point.x) p.x
    · exact listMinQ_le_mem (rest.map Point.x) q.x p.x (List.mem_map_of_mem Point.x h)

theorem le_zxMaxX_of_mem {pts : List Point} {p : Point} (hp : p ∈ pts) :
    p.x ≤ zxMaxX pts := by
  cases pts with
  | nil => cases hp
  | cons q rest =>
    rcases List.mem_cons.mp hp with h | h
    · subst h
      exact listMaxQ_seed_le (rest.map Point.x) p.x
    · exact listMaxQ_mem_le (rest.map Point.x) q.x p.x (List.mem_map_of_mem Point.x h)

theorem zxMinY_le_of_mem {pts : List Point} {p : Point} (hp : p ∈ pts) :
    zxMinY pts ≤ p.y := by
  cases pts with
  | nil => cases hp
  | cons q rest =>
    rcases List.mem_cons.mp hp with h | h
    · subst h
      exact listMinQ_le_seed (rest.map Point.y) p.y
    · exact listMinQ_le_mem (rest.map Point.y) q.y p.y (List.mem_map_of_mem Point.y h)

theorem le_zxMaxY_of_mem {pts : List Point} {p : Point} (hp : p ∈ pts) :
    p.y ≤ zxMaxY pts := by
  cases pts with
  | nil => cases hp
  | cons q rest =>
    rcases List.mem_cons.mp hp with h | h
    · subst h
      exact listMaxQ_seed_le (rest.map Point.y) p.y
    · exact listMaxQ_mem_le (rest.map Point.y) q.y p.y (List.mem_map_of_mem Point.y h)

theorem zxMinX_mem (pts : List Point) (h : pts ≠ []) :
    ∃ p ∈ pts, p.x = zxMinX pts := by
  cases pts with
  | nil => exact absurd rfl h
  | cons q rest =>
    rcases listMinQ_attained (rest.map Point.x) q.x with ha | hm
    · exact ⟨q, List.mem_cons_self q rest, ha.symm⟩
    · rcases List.mem_map.mp hm with ⟨p, hp, hpx⟩
      exact ⟨p, List.mem_cons.mpr (Or.inr hp), hpx⟩

theorem zxMaxX_mem (pts : List Point) (h : pts ≠ []) :
    ∃ p ∈ pts, p.x = zxMaxX pts := by
  cases pts with
  | nil => exact absurd rfl h
  | cons q rest =>
    rcases listMaxQ_attained (rest.map Point.x) q.x with ha | hm
    · exact ⟨q, List.mem_cons_self q rest, ha.symm⟩
    · rcases List.mem_map.mp hm with ⟨p, hp, hpx⟩
      exact ⟨p, List.mem_cons.mpr (Or.inr hp), hpx⟩

theorem zxMinY_mem (pts : List Point) (h : pts ≠ []) :
    ∃ p ∈ pts, p.y = zxMinY pts := by
  cases pts with
  | nil => exact absurd rfl h
  | cons q rest =>
    rcases listMinQ_attained (rest.map Point.y) q.y with ha | hm
    · exact ⟨q, List.mem_cons_self q rest, ha.symm⟩
    · rcases List.mem_map.mp hm with ⟨p, hp, hpy⟩
      exact ⟨p, List.mem_cons.mpr (Or.inr hp), hpy⟩

theorem zxMaxY_mem (pts : List Point) (h : pts ≠ []) :
    ∃ p ∈ pts, p.y = zxMaxY pts := by
  cases pts with
  | nil => exact absurd rfl h
  | cons q rest =>
    rcases listMaxQ_attained (rest.map Point.y) q.y with ha | hm
    · exact ⟨q, List.mem_cons_self q rest, ha.symm⟩
    · rcases List.mem_map.mp hm with ⟨p, hp, hpy⟩
      exact ⟨p, List.mem_cons.mpr (Or.inr hp), hpy⟩

/-- C3 (amended): the ZXing scanner's box bounds every result point and
is attained by result points, i.e. it is the min/max over all points
the detector returns; the jsQR scanner, by contrast, uses the min/max
of the four corners only for the suppression box, while its crop box
and recorded geometry use the difference of just two corner
coordinates (topRight.x - topLeft.x and bottomLeft.y - topLeft.y). -/
theorem boundingBox_minMax_characterization :
    (∀ (pts : List Point) (p : Point), p ∈ pts →
        zxMinX pts ≤ p.x ∧ p.x ≤ zxMaxX pts ∧ zxMinY pts ≤ p.y ∧ p.y ≤ zxMaxY pts)
    ∧ (∀ pts : List Point, pts ≠ [] →
        (∃ p ∈ pts, p.x = zxMinX pts) ∧ (∃ p ∈ pts, p.x = zxMaxX pts) ∧
        (∃ p ∈ pts, p.y = zxMinY pts) ∧ (∃ p ∈ pts, p.y = zxMaxY pts))
    ∧ (∀ loc : JsQrLocation,
        jsqrCropWidth loc = loc.topRightCorner.x - loc.topLeftCorner.x ∧
        jsqrCropHeight loc = loc.bottomLeftCorner.y - loc.topLeftCorner.y ∧
        jsqrSuppXLo loc = ⌊jsqrFourMinX loc⌋ - 10 ∧
        jsqrSuppXHi loc = ⌈jsqrFourMaxX loc⌉ + 10) := by
  refine ⟨?_, ?_, ?_⟩
  · intro pts p hp
    exact ⟨zxMinX_le_of_mem hp, le_zxMaxX_of_mem hp, zxMinY_le_of_mem hp,
      le_zxMaxY_of_mem hp⟩
  · intro pts h
    exact ⟨zxMinX_mem pts h, zxMaxX_mem pts h, zxMinY_mem pts h, zxMaxY_mem pts h⟩
  · intro loc
    exact ⟨rfl, rfl, rfl, rfl⟩

/-- Witness for C3 on the two-point list (1, 2), (5, 3). -/
theorem boundingBox_minMax_characterization_witness :
    (zxMinX pairPts ≤ (5 : ℚ) ∧ (5 : ℚ) ≤ zxMaxX pairPts ∧
      zxMinY pairPts ≤ (3 : ℚ) ∧ (3 : ℚ) ≤ zxMaxY pairPts)
    ∧ ((∃ p ∈ pairPts, p.x = zxMinX pairPts) ∧ (∃ p ∈ pairPts, p.x = zxMaxX pairPts) ∧
        (∃ p ∈ pairPts, p.y = zxMinY pairPts) ∧ (∃ p ∈ pairPts, p.y = zxMaxY pairPts)) :=
  ⟨boundingBox_minMax_characterization.1 pairPts ⟨5, 3⟩ (by decide),
    boundingBox_minMax_characterization.2.1 pairPts (by decide)⟩

/-- Counterexample for C3 as stated: on a detection rotated by 180
degrees, the box the jsQR scanner uses for the crop and the recorded
geometry is not the min/max box over the four corner points — its width
is the difference of just two corner x coordinates and is negative. -/
theorem jsqrCropBox_not_minMax_counterexample :
    jsqrCropWidth rotatedLoc ≠ jsqrFourMaxX rotatedLoc - jsqrFourMinX rotatedLoc ∧
    jsqrCropWidth rotatedLoc < 0 := by
  constructor
  · norm_num [jsqrCropWidth, jsqrFourMaxX, jsqrFourMinX, rotatedLoc, min_def, max_def]
  · norm_num [jsqrCropWidth, rotatedLoc]

/-- C9 (amended): every marker record of the jsQR PDF scanner carries
geometry in native units — the pixel crop box mapped by `toNative` at
the detection scale — and the ZXing standalone-image scanner records
the raw-pixel min/max box unscaled; however the recorded width (resp.
height) is positive exactly when the detector's top-right corner lies
strictly to the right of (resp. bottom-left corner strictly below) the
top-left corner, which can fail for rotated detections. -/
theorem markerRecord_nativeSpace_positivity (loc : JsQrLocation) (s : ℚ) (hs : 0 < s) :
    jsqrRecordedLocation loc s =
        toNative ⟨jsqrCropX loc, jsqrCropY loc, jsqrCropWidth loc, jsqrCropHeight loc⟩ s
    ∧ (0 < (jsqrRecordedLocation loc s).width ↔
        loc.topLeftCorner.x < loc.topRightCorner.x)
    ∧ (0 < (jsqrRecordedLocation loc s).height ↔
        loc.topLeftCorner.y < loc.bottomLeftCorner.y)
    ∧ (∀ (t : String) (pts : List Point) (w h : ℚ),
        (zxImageRecord t pts w h).location = zxImageRecordedLocation pts) := by
  have hiff : ∀ a : ℚ, 0 < a / s ↔ 0 < a := by
    intro a
    rw [div_pos_iff]
    constructor
    · rintro (⟨h1, _⟩ | ⟨_, h2⟩)
      · exact h1
      · exact absurd hs (not_lt_of_lt h2)
    · intro h1
      exact Or.inl ⟨h1, hs⟩
  refine ⟨rfl, ?_, ?_, fun t pts w h => rfl⟩
  · have := hiff (jsqrCropWidth loc)
    simpa [jsqrRecordedLocation, jsqrCropWidth, sub_pos] using this
  · have := hiff (jsqrCropHeight loc)
    simpa [jsqrRecordedLocation, jsqrCropHeight, sub_pos] using this

/-- Witness for C9 on an upright detection at scale 3. -/
theorem markerRecord_nativeSpace_positivity_witness :
    (0 : ℚ) < 3 ∧
      (0 < (jsqrRecordedLocation uprightLoc 3).width ↔
        uprightLoc.topLeftCorner.x < uprightLoc.topRightCorner.x) :=
  ⟨by norm_num, (markerRecord_nativeSpace_positivity uprightLoc 3 (by norm_num)).2.1⟩

/-- Counterexample for C9 as stated: the record of a 180-degree-rotated
detection has negative width, violating the width > 0 invariant. -/
theorem markerRecord_negativeWidth_counterexample :
    (jsqrRecordedLocation rotatedLoc 3).width < 0 := by
  norm_num [jsqrRecordedLocation, jsqrCropWidth, rotatedLoc]

/-! ### Generic facts about left folds -/

theorem foldl_preserve {α β : Type} (f : β → α → β) (P : β → Prop)
    (h : ∀ b a, P b → P (f b a)) :
    ∀ (l : List α) (b : β), P b → P (l.foldl f b) := by
  intro l
  induction l with
  | nil => intro b hb; exact hb
  | cons a l ih => intro b hb; exact ih (f b a) (h b a hb)

theorem foldl_establish {α β : Type} (f : β → α → β) (P Q : β → Prop)
    (hQ : ∀ b a, Q b → Q (f b a))
    (hP : ∀ b a, P b → P (f b a))
    (a0 : α) (hest : ∀ b, Q b → P (f b a0)) :
    ∀ (l : List α) (b : β), a0 ∈ l → Q b → P (l.foldl f b) := by
  intro l
  induction l with
  | nil => intro b hmem; cases hmem
  | cons a l ih =>
    intro b hmem hq
    rcases List.mem_cons.mp hmem with h | h
    · subst h
      exact foldl_preserve f P hP l (f b a0) (hest b hq)
    · exact ih (f b a) h (hQ b a hq)

/-! ### Facts about the jsQR white-out -/

theorem mem_intRange {x lo hi : ℤ} : x ∈ intRange lo hi ↔ lo ≤ x ∧ x < hi := by
  simp only [intRange, List.mem_map, List.mem_range]
  constructor
  · rintro ⟨k, hk, rfl⟩
    omega
  · intro h
    exact ⟨(x - lo).toNat, by omega, by omega⟩

theorem whiteOutPixel_width (img : ImageData) (x y : ℤ) :
    (whiteOutPixel img x y).width = img.width := by
  unfold whiteOutPixel
  split <;> rfl

theorem whiteOutPixel_height (img : ImageData) (x y : ℤ) :
    (whiteOutPixel img x y).height = img.height := by
  unfold whiteOutPixel
  split <;> rfl

theorem whiteOutPixel_data_or (img : ImageData) (x y : ℤ) (n : ℕ) :
    (whiteOutPixel img x y).data n = 255 ∨ (whiteOutPixel img x y).data n = img.data n := by
  unfold whiteOutPixel
  split
  · right; rfl
  · show setChannelsWhite img.data _ n = 255 ∨ setChannelsWhite img.data _ n = img.data n
    unfold setChannelsWhite
    split
    · left; rfl
    · right; rfl

theorem whiteOutPixel_whitens (img : ImageData) (x y : ℤ)
    (hx0 : 0 ≤ x) (hxw : x < (img.width : ℤ)) (hy0 : 0 ≤ y) (hyh : y < (img.height : ℤ)) :
    (whiteOutPixel img x y).data ((y.toNat * img.width + x.toNat) * 4) = 255 ∧
    (whiteOutPixel img x y).data ((y.toNat * img.width + x.toNat) * 4 + 1) = 255 ∧
    (whiteOutPixel img x y).data ((y.toNat * img.width + x.toNat) * 4 + 2) = 255 := by
  unfold whiteOutPixel
  rw [if_neg]
  · refine ⟨?_, ?_, ?_⟩ <;> simp [setChannelsWhite]
  · push_neg
    exact ⟨hx0, hxw, hy0, hyh⟩

theorem whiteOutRow_width (img : ImageData) (y minX maxX : ℤ) :
    (whiteOutRow img y minX maxX).width = img.width := by
  unfold whiteOutRow
  exact foldl_preserve (fun im xv => whiteOutPixel im xv y) (fun b => b.width = img.width)
    (fun b a hb => by dsimp only; rw [whiteOutPixel_width]; exact hb) (intRange minX maxX) img rfl

theorem whiteOutRow_height (img : ImageData) (y minX maxX : ℤ) :
    (whiteOutRow img y minX maxX).height = img.height := by
  unfold whiteOutRow
  exact foldl_preserve (fun im xv => whiteOutPixel im xv y) (fun b => b.height = img.height)
    (fun b a hb => by dsimp only; rw [whiteOutPixel_height]; exact hb) (intRange minX maxX) img rfl

theorem whiteOutRow_data_or (img : ImageData) (y minX maxX : ℤ) (n : ℕ) :
    (whiteOutRow img y minX maxX).data n = 255 ∨
      (whiteOutRow img y minX maxX).data n = img.data n := by
  unfold whiteOutRow
  refine foldl_preserve (fun im xv => whiteOutPixel im xv y)
    (fun b => b.data n = 255 ∨ b.data n = img.data n) ?_ (intRange minX maxX) img (Or.inr rfl)
  intro b a hb
  rcases whiteOutPixel_data_or b a y n with h | h
  · exact Or.inl h
  · rw [h]; exact hb

theorem whiteOutRow_whitens (img : ImageData) (y minX maxX x : ℤ)
    (hx1 : minX ≤ x) (hx2 : x < maxX)
    (hx0 : 0 ≤ x) (hxw : x < (img.width : ℤ)) (hy0 : 0 ≤ y) (hyh : y < (img.height : ℤ)) :
    (whiteOutRow img y minX maxX).data ((y.toNat * img.width + x.toNat) * 4) = 255 ∧
    (whiteOutRow img y minX maxX).data ((y.toNat * img.width + x.toNat) * 4 + 1) = 255 ∧
    (whiteOutRow img y minX maxX).data ((y.toNat * img.width + x.toNat) * 4 + 2) = 255 := by
  unfold whiteOutRow
  have key := foldl_establish (fun im xv => whiteOutPixel im xv y)
    (fun b => b.width = img.width ∧ b.height = img.height ∧
      b.data ((y.toNat * img.width + x.toNat) * 4) = 255 ∧
      b.data ((y.toNat * img.width + x.toNat) * 4 + 1) = 255 ∧
      b.data ((y.toNat * img.width + x.toNat) * 4 + 2) = 255)
    (fun b => b.width = img.width ∧ b.height = img.height)
    ?_ ?_ x ?_ (intRange minX maxX) img (mem_intRange.mpr ⟨hx1, hx2⟩) ⟨rfl, rfl⟩
  · exact ⟨key.2.2.1, key.2.2.2.1, key.2.2.2.2⟩
  · intro b a hb
    exact ⟨by rw [whiteOutPixel_width]; exact hb.1, by rw [whiteOutPixel_height]; exact hb.2⟩
  · intro b a hb
    obtain ⟨hbw, hbh, h1, h2, h3⟩ := hb
    refine ⟨by rw [whiteOutPixel_width]; exact hbw, by rw [whiteOutPixel_height]; exact hbh,
      ?_, ?_, ?_⟩
    · rcases whiteOutPixel_data_or b a y ((y.toNat * img.width + x.toNat) * 4) with h | h
      · exact h
      · rw [h]; exact h1
    · rcases whiteOutPixel_data_or b a y ((y.toNat * img.width + x.toNat) * 4 + 1) with h | h
      · exact h
      · rw [h]; exact h2
    · rcases whiteOutPixel_data_or b a y ((y.toNat * img.width + x.toNat) * 4 + 2) with h | h
      · exact h
      · rw [h]; exact h3
  · intro b hb
    obtain ⟨hbw, hbh⟩ := hb
    have hw : x < (b.width : ℤ) := by rw [hbw]; exact hxw
    have hh : y < (b.height : ℤ) := by rw [hbh]; exact hyh
    have := whiteOutPixel_whitens b x y hx0 hw hy0 hh
    rw [hbw] at this
    exact ⟨by rw [whiteOutPixel_width]; exact hbw, by rw [whiteOutPixel_height]; exact hbh,
      this.1, this.2.1, this.2.2⟩

theorem whiteOutBox_width (img : ImageData) (minX maxX minY maxY : ℤ) :
    (whiteOutBox img minX maxX minY maxY).width = img.width := by
  unfold whiteOutBox
  exact foldl_preserve (fun im yv => whiteOutRow im yv minX maxX)
    (fun b => b.width = img.width)
    (fun b a hb => by dsimp only; rw [whiteOutRow_width]; exact hb) (intRange minY maxY) img rfl

theorem whiteOutBox_height (img : ImageData) (minX maxX minY maxY : ℤ) :
    (whiteOutBox img minX maxX minY maxY).height = img.height := by
  unfold whiteOutBox
  exact foldl_preserve (fun im yv => whiteOutRow im yv minX maxX)
    (fun b => b.height = img.height)
    (fun b a hb => by dsimp only; rw [whiteOutRow_height]; exact hb) (intRange minY maxY) img rfl

theorem whiteOutBox_data_or (img : ImageData) (minX maxX minY maxY : ℤ) (n : ℕ) :
    (whiteOutBox img minX maxX minY maxY).data n = 255 ∨
      (whiteOutBox img minX maxX minY maxY).data n = img.data n := by
  unfold whiteOutBox
  refine foldl_preserve (fun im yv => whiteOutRow im yv minX maxX)
    (fun b => b.data n = 255 ∨ b.data n = img.data n) ?_ (intRange minY maxY) img (Or.inr rfl)
  intro b a hb
  rcases whiteOutRow_data_or b a minX maxX n with h | h
  · exact Or.inl h
  · rw [h]; exact hb

theorem whiteOutBox_whitens (img : ImageData) (minX maxX minY maxY x y : ℤ)
    (hx1 : minX ≤ x) (hx2 : x < maxX) (hy1 : minY ≤ y) (hy2 : y < maxY)
    (hx0 : 0 ≤ x) (hxw : x < (img.width : ℤ)) (hy0 : 0 ≤ y) (hyh : y < (img.height : ℤ)) :
    (whiteOutBox img minX maxX minY maxY).data ((y.toNat * img.width + x.toNat) * 4) = 255 ∧
    (whiteOutBox img minX maxX minY maxY).data ((y.toNat * img.width + x.toNat) * 4 + 1) = 255 ∧
    (whiteOutBox img minX maxX minY maxY).data ((y.toNat * img.width + x.toNat) * 4 + 2) = 255 := by
  unfold whiteOutBox
  have key := foldl_establish (fun im yv => whiteOutRow im yv minX maxX)
    (fun b => b.width = img.width ∧ b.height = img.height ∧
      b.data ((y.toNat * img.width + x.toNat) * 4) = 255 ∧
      b.data ((y.toNat * img.width + x.toNat) * 4 + 1) = 255 ∧
      b.data ((y.toNat * img.width + x.toNat) * 4 + 2) = 255)
    (fun b => b.width = img.width ∧ b.height = img.height)
    ?_ ?_ y ?_ (intRange minY maxY) img (mem_intRange.mpr ⟨hy1, hy2⟩) ⟨rfl, rfl⟩
  · exact ⟨key.2.2.1, key.2.2.2.1, key.2.2.2.2⟩
  · intro b a hb
    exact ⟨by rw [whiteOutRow_width]; exact hb.1, by rw [whiteOutRow_height]; exact hb.2⟩
  · intro b a hb
    obtain ⟨hbw, hbh, h1, h2, h3⟩ := hb
    refine ⟨by rw [whiteOutRow_width]; exact hbw, by rw [whiteOutRow_height]; exact hbh,
      ?_, ?_, ?_⟩
    · rcases whiteOutRow_data_or b a minX maxX ((y.toNat * img.width + x.toNat) * 4) with h | h
      · exact h
      · rw [h]; exact h1
    · rcases whiteOutRow_data_or b a minX maxX ((y.toNat * img.width + x.toNat) * 4 + 1) with h | h
      · exact h
      · rw [h]; exact h2
    · rcases whiteOutRow_data_or b a minX maxX ((y.toNat * img.width + x.toNat) * 4 + 2) with h | h
      · exact h
      · rw [h]; exact h3
  · intro b hb
    obtain ⟨hbw, hbh⟩ := hb
    have hw : x < (b.width : ℤ) := by rw [hbw]; exact hxw
    have hh : y < (b.height : ℤ) := by rw [hbh]; exact hyh
    have := whiteOutRow_whitens b y minX maxX x hx1 hx2 hx0 hw hy0 hh
    rw [hbw] at this
    exact ⟨by rw [whiteOutRow_width]; exact hbw, by rw [whiteOutRow_height]; exact hbh,
      this.1, this.2.1, this.2.2⟩

theorem jsqrSuppress_width (img : ImageData) (loc : JsQrLocation) :
    (jsqrSuppress img loc).width = img.width :=
  whiteOutBox_width img _ _ _ _

theorem jsqrSuppress_height (img : ImageData) (loc : JsQrLocation) :
    (jsqrSuppress img loc).height = img.height :=
  whiteOutBox_height img _ _ _ _

theorem jsqrSuppress_data_or (img : ImageData) (loc : JsQrLocation) (n : ℕ) :
    (jsqrSuppress img loc).data n = 255 ∨ (jsqrSuppress img loc).data n = img.data n :=
  whiteOutBox_data_or img _ _ _ _ n

theorem jsqrSuppress_whitens (img : ImageData) (loc : JsQrLocation) (x y : ℤ)
    (hx1 : jsqrSuppXLo loc ≤ x) (hx2 : x < jsqrSuppXHi loc)
    (hy1 : jsqrSuppYLo loc ≤ y) (hy2 : y < jsqrSuppYHi loc)
    (hx0 : 0 ≤ x) (hxw : x < (img.width : ℤ)) (hy0 : 0 ≤ y) (hyh : y < (img.height : ℤ)) :
    (jsqrSuppress img loc).data ((y.toNat * img.width + x.toNat) * 4) = 255 ∧
    (jsqrSuppress img loc).data ((y.toNat * img.width + x.toNat) * 4 + 1) = 255 ∧
    (jsqrSuppress img loc).data ((y.toNat * img.width + x.toNat) * 4 + 2) = 255 :=
  whiteOutBox_whitens img _ _ _ _ x y hx1 hx2 hy1 hy2 hx0 hxw hy0 hyh

/-! ### The shrinking non-white measure and loop termination -/

theorem linearIndex_lt {w h xN yN : ℕ} (hx : xN < w) (hy : yN < h) :
    yN * w + xN < w * h := by
  calc yN * w + xN < yN * w + w := by omega
    _ = (yN + 1) * w := by ring
    _ ≤ h * w := Nat.mul_le_mul_right w (by omega)
    _ = w * h := Nat.mul_comm h w

theorem pixelNonWhite_of_suppress {img : ImageData} {loc : JsQrLocation} {p : ℕ}
    (hp : pixelNonWhite (jsqrSuppress img loc) p) : pixelNonWhite img p := by
  intro hall
  apply hp
  obtain ⟨h1, h2, h3⟩ := hall
  refine ⟨?_, ?_, ?_⟩
  · rcases jsqrSuppress_data_or img loc (p * 4) with h | h
    · exact h
    · rw [h]; exact h1
  · rcases jsqrSuppress_data_or img loc (p * 4 + 1) with h | h
    · exact h
    · rw [h]; exact h2
  · rcases jsqrSuppress_data_or img loc (p * 4 + 2) with h | h
    · exact h
    · rw [h]; exact h3

theorem nonWhitePixels_suppress_subset (img : ImageData) (loc : JsQrLocation) :
    nonWhitePixels (jsqrSuppress img loc) ⊆ nonWhitePixels img := by
  intro p hp
  simp only [nonWhitePixels, Finset.mem_filter, Finset.mem_range] at hp ⊢
  rcases hp with ⟨hlt, hnw⟩
  rw [jsqrSuppress_width, jsqrSuppress_height] at hlt
  exact ⟨hlt, pixelNonWhite_of_suppress hnw⟩

theorem nonWhiteCount_suppress_lt (img : ImageData) (loc : JsQrLocation)
    (hprog : ∃ x y : ℤ,
      jsqrSuppXLo loc ≤ x ∧ x < jsqrSuppXHi loc ∧
      jsqrSuppYLo loc ≤ y ∧ y < jsqrSuppYHi loc ∧
      0 ≤ x ∧ x < (img.width : ℤ) ∧ 0 ≤ y ∧ y < (img.height : ℤ) ∧
      pixelNonWhite img (y.toNat * img.width + x.toNat)) :
    nonWhiteCount (jsqrSuppress img loc) < nonWhiteCount img := by
  obtain ⟨x, y, hx1, hx2, hy1, hy2, hx0, hxw, hy0, hyh, hnw⟩ := hprog
  have hxN : x.toNat < img.width := by omega
  have hyN : y.toNat < img.height := by omega
  have hmem : y.toNat * img.width + x.toNat ∈ nonWhitePixels img := by
    simp only [nonWhitePixels, Finset.mem_filter, Finset.mem_range]
    exact ⟨linearIndex_lt hxN hyN, hnw⟩
  have hwhite := jsqrSuppress_whitens img loc x y hx1 hx2 hy1 hy2 hx0 hxw hy0 hyh
  have hnotmem : y.toNat * img.width + x.toNat ∉ nonWhitePixels (jsqrSuppress img loc) := by
    simp only [nonWhitePixels, Finset.mem_filter, Finset.mem_range]
    intro hcon
    exact hcon.2 ⟨hwhite.1, hwhite.2.1, hwhite.2.2⟩
  exact Finset.card_lt_card
    ((Finset.ssubset_iff_of_subset (nonWhitePixels_suppress_subset img loc)).mpr
      ⟨y.toNat * img.width + x.toNat, hmem, hnotmem⟩)

theorem scanPageJsqr_flag_true (D : ImageData → Option JsQrCode)
    (hD : DetectorProgress D) (pn : ℕ) (scale pw ph : ℚ) :
    ∀ (fuel : ℕ) (img : ImageData), nonWhiteCount img < fuel →
      (scanPageJsqr D pn scale pw ph fuel img).2 = true := by
  intro fuel
  induction fuel with
  | zero => intro img h; exact absurd h (Nat.not_lt_zero _)
  | succ n ih =>
    intro img h
    cases hdet : D img with
    | none => simp [scanPageJsqr, hdet]
    | some code =>
      have hlt := nonWhiteCount_suppress_lt img code.location (hD img code hdet)
      have hn : nonWhiteCount (jsqrSuppress img code.location) < n := by omega
      simp only [scanPageJsqr, hdet]
      exact ih _ hn

/-- C4: the per-page scan loop terminates through the detector's
not-found signal and not through any iteration cap: whenever every
reported marker still contains a non-white pixel inside its suppression
box (the claim's "each iteration permanently removes at least one
marker-sized area"), fuel equal to the number of non-white pixels plus
one already makes the loop exit with the detector reporting no marker
(flag `true`), and a not-found report stops the loop immediately with
no further iteration. -/
theorem scanPageJsqr_terminates (D : ImageData → Option JsQrCode)
    (hD : DetectorProgress D) (pn : ℕ) (scale pw ph : ℚ) (img : ImageData) :
    (scanPageJsqr D pn scale pw ph (nonWhiteCount img + 1) img).2 = true ∧
    (∀ (fuel : ℕ) (im : ImageData), D im = none →
      scanPageJsqr D pn scale pw ph (fuel + 1) im = ([], true)) := by
  constructor
  · exact scanPageJsqr_flag_true D hD pn scale pw ph _ img (Nat.lt_succ_self _)
  · intro fuel im him
    simp [scanPageJsqr, him]

theorem detectAtOrigin_progress : DetectorProgress detectAtOrigin := by
  intro img code h
  unfold detectAtOrigin at h
  split_ifs at h with hcond
  · obtain ⟨hw, hh, hdata⟩ := hcond
    injection h with hcode
    refine ⟨0, 0, ?_, ?_, ?_, ?_, le_refl 0, ?_, le_refl 0, ?_, ?_⟩
    · rw [← hcode]
      norm_num [jsqrSuppXLo, jsqrFourMinX, tinyLoc, suppressionPadding, min_def]
    · rw [← hcode]
      norm_num [jsqrSuppXHi, jsqrFourMaxX, tinyLoc, suppressionPadding, max_def,
        Int.ceil_one]
    · rw [← hcode]
      norm_num [jsqrSuppYLo, jsqrFourMinY, tinyLoc, suppressionPadding, min_def]
    · rw [← hcode]
      norm_num [jsqrSuppYHi, jsqrFourMaxY, tinyLoc, suppressionPadding, max_def,
        Int.ceil_one]
    · exact_mod_cast hw
    · exact_mod_cast hh
    · intro hall
      apply hdata
      have : ((0 : ℤ).toNat * img.width + (0 : ℤ).toNat) * 4 = 0 := by simp
      rw [this] at hall
      exact hall.1

/-- Witness for C4: on a 2 x 2 all-black buffer with a detector that
keeps reporting a marker at the origin until the origin byte is
whitened, the scan loop with fuel nonWhiteCount + 1 exits through the
not-found signal. -/
theorem scanPageJsqr_terminates_witness :
    DetectorProgress detectAtOrigin ∧
      (scanPageJsqr detectAtOrigin 1 3 600 600
          (nonWhiteCount blackBuffer2 + 1) blackBuffer2).2 = true :=
  ⟨detectAtOrigin_progress,
    (scanPageJsqr_terminates detectAtOrigin detectAtOrigin_progress 1 3 600 600
        blackBuffer2).1⟩

/-! ### Evaluation lemmas for the concrete ZXing box -/

theorem zxMinX_squarePts : zxMinX squarePts = 20 := by
  norm_num [zxMinX, squarePts, listMinQ, List.foldl_cons, List.foldl_nil, min_def]

theorem zxMaxX_squarePts : zxMaxX squarePts = 60 := by
  norm_num [zxMaxX, squarePts, listMaxQ, List.foldl_cons, List.foldl_nil, max_def]

theorem zxMinY_squarePts : zxMinY squarePts = 20 := by
  norm_num [zxMinY, squarePts, listMinQ, List.foldl_cons, List.foldl_nil, min_def]

theorem zxMaxY_squarePts : zxMaxY squarePts = 60 := by
  norm_num [zxMaxY, squarePts, listMaxQ, List.foldl_cons, List.foldl_nil, max_def]

theorem pixelTouched_false_of_left {w h : ℕ} {rx ry rw rh : ℚ} {p : ℕ}
    (hx : ((p % w : ℕ) : ℚ) + 1 ≤ rx) :
    pixelTouched w h rx ry rw rh p = false := by
  have hnot : ¬(rx < ((p % w : ℕ) : ℚ) + 1) := not_lt.mpr hx
  unfold pixelTouched
  rw [decide_eq_false hnot]
  simp

/-- C2 (amended): the jsQR scanner's suppression overwrites the RGB
bytes of every in-bounds pixel of the four-corner bounding box extended
by the fixed 10-pixel padding on each side; the ZXing scanners'
suppression, by contrast, fills exactly the unpadded min/max box —
every pixel whose square does not meet that box, even one lying inside
the 10-pixel padding margin, keeps its previous bytes. -/
theorem suppressionRegions_padded_vs_unpadded :
    (∀ (img : ImageData) (loc : JsQrLocation) (x y : ℤ),
      jsqrSuppXLo loc ≤ x → x < jsqrSuppXHi loc →
      jsqrSuppYLo loc ≤ y → y < jsqrSuppYHi loc →
      0 ≤ x → x < (img.width : ℤ) → 0 ≤ y → y < (img.height : ℤ) →
        (jsqrSuppress img loc).data ((y.toNat * img.width + x.toNat) * 4) = 255 ∧
        (jsqrSuppress img loc).data ((y.toNat * img.width + x.toNat) * 4 + 1) = 255 ∧
        (jsqrSuppress img loc).data ((y.toNat * img.width + x.toNat) * 4 + 2) = 255)
    ∧ (∀ (img : ImageData) (pts : List Point) (n : ℕ),
        pixelTouched img.width img.height (zxMinX pts) (zxMinY pts)
            (zxQrWidth pts) (zxQrHeight pts) (n / 4) = false →
          (zxSuppress img pts).data n = img.data n) := by
  constructor
  · intro img loc x y hx1 hx2 hy1 hy2 hx0 hxw hy0 hyh
    exact jsqrSuppress_whitens img loc x y hx1 hx2 hy1 hy2 hx0 hxw hy0 hyh
  · intro img pts n hfalse
    simp [zxSuppress, fillRectWhite, hfalse]

/-- Witness for C2: the padded jsQR suppression whitens the origin of a
2 x 2 black buffer, and the unpadded ZXing suppression leaves the byte
of pixel (15, 25) of a 100 x 100 black canvas unchanged. -/
theorem suppressionRegions_padded_vs_unpadded_witness :
    ((jsqrSuppress blackBuffer2 tinyLoc).data
        (((0 : ℤ).toNat * blackBuffer2.width + (0 : ℤ).toNat) * 4) = 255 ∧
      (jsqrSuppress blackBuffer2 tinyLoc).data
        (((0 : ℤ).toNat * blackBuffer2.width + (0 : ℤ).toNat) * 4 + 1) = 255 ∧
      (jsqrSuppress blackBuffer2 tinyLoc).data
        (((0 : ℤ).toNat * blackBuffer2.width + (0 : ℤ).toNat) * 4 + 2) = 255)
    ∧ (zxSuppress canvas100 squarePts).data ((25 * 100 + 15) * 4)
        = canvas100.data ((25 * 100 + 15) * 4) := by
  constructor
  · exact suppressionRegions_padded_vs_unpadded.1 blackBuffer2 tinyLoc 0 0
      (by norm_num [jsqrSuppXLo, jsqrFourMinX, tinyLoc, suppressionPadding, min_def])
      (by norm_num [jsqrSuppXHi, jsqrFourMaxX, tinyLoc, suppressionPadding, max_def,
        Int.ceil_one])
      (by norm_num [jsqrSuppYLo, jsqrFourMinY, tinyLoc, suppressionPadding, min_def])
      (by norm_num [jsqrSuppYHi, jsqrFourMaxY, tinyLoc, suppressionPadding, max_def,
        Int.ceil_one])
      (le_refl 0) (by norm_num [blackBuffer2]) (le_refl 0) (by norm_num [blackBuffer2])
  · exact suppressionRegions_padded_vs_unpadded.2 canvas100 squarePts ((25 * 100 + 15) * 4)
      (pixelTouched_false_of_left (by rw [zxMinX_squarePts]; norm_num [canvas100]))

/-- Counterexample for C2 as stated: pixel (15, 25) of a 100 x 100
black canvas lies inside the detected box extended by the 10-pixel
padding (the box spans x in 20..60, y in 20..60), yet after the ZXing
suppression step its byte is still 0, not white. -/
theorem zxSuppress_noPadding_counterexample :
    zxMinX squarePts - 10 ≤ 15 ∧ (15 : ℚ) < zxMaxX squarePts + 10 ∧
    zxMinY squarePts - 10 ≤ 25 ∧ (25 : ℚ) < zxMaxY squarePts + 10 ∧
    (zxSuppress canvas100 squarePts).data ((25 * 100 + 15) * 4) = 0 := by
  refine ⟨?_, ?_, ?_, ?_, ?_⟩
  · rw [zxMinX_squarePts]; norm_num
  · rw [zxMaxX_squarePts]; norm_num
  · rw [zxMinY_squarePts]; norm_num
  · rw [zxMaxY_squarePts]; norm_num
  · have hfalse :
        pixelTouched canvas100.width canvas100.height (zxMinX squarePts)
          (zxMinY squarePts) (zxQrWidth squarePts) (zxQrHeight squarePts)
          (((25 * 100 + 15) * 4) / 4) = false :=
      pixelTouched_false_of_left (by rw [zxMinX_squarePts]; norm_num [canvas100])
    calc (zxSuppress canvas100 squarePts).data ((25 * 100 + 15) * 4)
        = canvas100.data ((25 * 100 + 15) * 4) := by
          simp [zxSuppress, fillRectWhite, hfalse]
      _ = 0 := rfl

/-! ### Error semantics of the ZXing scan loop -/

theorem zxScanPageTrace_error_eq_notFound (i : ℕ) (scale pw ph : ℚ) :
    ∀ pre : List DetectOutcome,
      zxScanPageTrace i scale pw ph (pre ++ [DetectOutcome.error])
        = zxScanPageTrace i scale pw ph (pre ++ [DetectOutcome.notFound]) := by
  intro pre
  induction pre with
  | nil => rfl
  | cons o rest ih =>
    cases o with
    | found t pts =>
      simp only [List.cons_append, zxScanPageTrace]
      exact congrArg (fun z => zxRecord t pts i scale pw ph :: z) ih
    | notFound => rfl
    | error => rfl

/-- C5 (amended): an unexpected (non-not-found) detector failure aborts
only the current page — the markers already found on it are kept and
the remaining pages are still scanned — but the failure is only logged
to the console: the extraction result is exactly the one a clean
not-found stop at the same point would produce, so the returned value
does not tell the caller the page was only partially scanned. -/
theorem detectorError_truncates_currentPage_only (scale : ℚ)
    (pages1 pages2 : List ZxPage) (pre : List DetectOutcome) (pw ph : ℚ) :
    zxExtractFromPdf scale (pages1 ++ ⟨pre ++ [DetectOutcome.error], pw, ph⟩ :: pages2)
      = zxExtractFromPdf scale
          (pages1 ++ ⟨pre ++ [DetectOutcome.notFound], pw, ph⟩ :: pages2) := by
  unfold zxExtractFromPdf
  suffices h : ∀ (l : List ZxPage) (i : ℕ),
      zxExtractAux scale i (l ++ ⟨pre ++ [DetectOutcome.error], pw, ph⟩ :: pages2)
        = zxExtractAux scale i (l ++ ⟨pre ++ [DetectOutcome.notFound], pw, ph⟩ :: pages2) by
    exact h pages1 1
  intro l
  induction l with
  | nil =>
    intro i
    simp only [List.nil_append, zxExtractAux]
    rw [zxScanPageTrace_error_eq_notFound]
  | cons pg rest ih =>
    intro i
    simp only [List.cons_append, zxExtractAux]
    exact congrArg
      (fun z => zxScanPageTrace i scale pg.pixelWidth pg.pixelHeight pg.outcomes ++ z)
      (ih (i + 1))

/-- Counterexample for C5 as stated: a page whose detector finds one
marker and then fails with an unexpected error yields the very same
extraction result as a page whose detector finds one marker and then
cleanly reports not found — the caller is not informed of the partial
scan; the one found marker is kept. -/
theorem detectorError_not_surfaced_counterexample :
    zxExtractFromPdf 2 [⟨[foundOutcome, DetectOutcome.error], 1200, 1600⟩]
      = zxExtractFromPdf 2 [⟨[foundOutcome, DetectOutcome.notFound], 1200, 1600⟩]
    ∧ (zxExtractFromPdf 2 [⟨[foundOutcome, DetectOutcome.error], 1200, 1600⟩]).length
        = 1 :=
  ⟨rfl, rfl⟩

/-! ### Batch isolation -/

theorem settleResults_append (l1 l2 : List (FileDesc × Except String ProcessedFile)) :
    settleResults (l1 ++ l2)
      = ((settleResults l1).1 ++ (settleResults l2).1,
        (settleResults l1).2 ++ (settleResults l2).2) := by
  induction l1 with
  | nil => simp [settleResults]
  | cons fr rest ih =>
    obtain ⟨f, r⟩ := fr
    cases r with
    | ok v => simp [settleResults, ih]
    | error m => simp [settleResults, ih]

/-- C6: per-file failures in a batch are isolated: a failing file
contributes exactly one failure message while every other file is
processed as if the failing file were not there; in particular a batch
of three files whose second file is neither a PDF nor an image yields
the two successes and one isolated failure entry for the middle
file. -/
theorem processBatch_isolatesFailures
    (ePdf eImg : FileDesc → Except String (List QrCodeInfo)) :
    (∀ (fs1 fs2 : List FileDesc) (f : FileDesc) (m : String),
      processOneFile ePdf eImg f = Except.error m →
      processBatch ePdf eImg (fs1 ++ f :: fs2)
        = ((processBatch ePdf eImg fs1).1 ++ (processBatch ePdf eImg fs2).1,
          (processBatch ePdf eImg fs1).2 ++
            (f.name ++ ": " ++ m) :: (processBatch ePdf eImg fs2).2))
    ∧ (∀ (f1 f2 f3 : FileDesc) (r1 r3 : ProcessedFile),
      processOneFile ePdf eImg f1 = Except.ok r1 →
      isPdfLike f2 = false → isImageLike f2 = false →
      processOneFile ePdf eImg f3 = Except.ok r3 →
      processBatch ePdf eImg [f1, f2, f3]
        = ([r1, r3], [f2.name ++ ": " ++ (unsupportedTypeMsg ++ f2.name)])) := by
  constructor
  · intro fs1 fs2 f m hferr
    unfold processBatch
    rw [List.map_append, List.map_cons, settleResults_append]
    simp [settleResults, hferr]
  · intro f1 f2 f3 r1 r3 h1 h2 h3 h4
    have hf2 : processOneFile ePdf eImg f2
        = Except.error (unsupportedTypeMsg ++ f2.name) := by
      unfold processOneFile
      rw [h2, h3]
      rfl
    simp [processBatch, settleResults, h1, hf2, h4]

/-- Witness for C6 on a three-file batch with stub extractors: a PDF, a
plain-text file and a PNG give two successes and one isolated failure
entry for the text file. -/
theorem processBatch_isolatesFailures_witness :
    processOneFile stubPdfExtractor stubImgExtractor filePdfA
        = Except.ok ⟨filePdfA, [], fileId filePdfA⟩
    ∧ isPdfLike fileTxtB = false ∧ isImageLike fileTxtB = false
    ∧ processOneFile stubPdfExtractor stubImgExtractor filePngC
        = Except.ok ⟨filePngC, [], fileId filePngC⟩
    ∧ processBatch stubPdfExtractor stubImgExtractor [filePdfA, fileTxtB, filePngC]
        = ([⟨filePdfA, [], fileId filePdfA⟩, ⟨filePngC, [], fileId filePngC⟩],
          [fileTxtB.name ++ ": " ++ (unsupportedTypeMsg ++ fileTxtB.name)]) := by
  refine ⟨rfl, rfl, rfl, rfl, ?_⟩
  exact (processBatch_isolatesFailures stubPdfExtractor stubImgExtractor).2
    filePdfA fileTxtB filePngC ⟨filePdfA, [], fileId filePdfA⟩
    ⟨filePngC, [], fileId filePngC⟩ rfl rfl rfl rfl

/-! ### Settings import -/

/-- C7: importing a settings record that lacks the size field, or whose
size is not a number, or whose color or backgroundColor is missing, is
rejected with the settings-format error message and leaves the current
in-memory customization unchanged. -/
theorem settingsImport_rejectsMalformed (st : SettingsState) (s : Json)
    (h : jsTypeofOpt (jget s "size") ≠ "number" ∨
      jget s "color" = none ∨ jget s "backgroundColor" = none) :
    (handleSettingsFileChange st (some s)).customization = st.customization ∧
    (handleSettingsFileChange st (some s)).errorMsg = some settingsFormatErrorMsg := by
  have hval : validSettings s = false := by
    unfold validSettings
    rcases h with h | h | h
    · have : (jsTypeofOpt (jget s "size") == "number") = false := by
        simpa using h
      rw [this]
      simp
    · rw [h]
      simp [jsTruthyOpt]
    · rw [h]
      simp [jsTruthyOpt]
  simp [handleSettingsFileChange, hval]

/-- Witness for C7: importing a record with color and backgroundColor
but no size is rejected and the customization is untouched. -/
theorem settingsImport_rejectsMalformed_witness :
    jsTypeofOpt (jget settingsMissingSize "size") ≠ "number" ∧
    (handleSettingsFileChange initialSettingsState (some settingsMissingSize)).customization
        = initialSettingsState.customization ∧
    (handleSettingsFileChange initialSettingsState (some settingsMissingSize)).errorMsg
        = some settingsFormatErrorMsg := by
  have h : jsTypeofOpt (jget settingsMissingSize "size") ≠ "number" := by decide
  have key := settingsImport_rejectsMalformed initialSettingsState settingsMissingSize
    (Or.inl h)
  exact ⟨h, key.1, key.2⟩

/-- C10 (implicit): the validation accepts any record whose color and
backgroundColor are truthy and whose size has JavaScript type number —
NaN, zero and negative sizes included — and acceptance replaces the
whole in-memory customization record with the parsed value as-is,
extra fields and all; the stored size is then used directly as the
drawn width and height of the replacement marker. -/
theorem settingsImport_acceptsAnyNumberSize (st : SettingsState) (s : Json)
    (h1 : jsTruthyOpt (jget s "color") = true)
    (h2 : jsTruthyOpt (jget s "backgroundColor") = true)
    (h3 : jsTypeofOpt (jget s "size") = "number") :
    handleSettingsFileChange st (some s) = { st with customization := s } ∧
    ∀ (loc : Rect) (q : ℚ),
      (replaceDrawRect loc q).width = q ∧ (replaceDrawRect loc q).height = q := by
  have hval : validSettings s = true := by
    unfold validSettings
    rw [h1, h2, h3]
    simp
  constructor
  · simp [handleSettingsFileChange, hval]
  · intro loc q
    exact ⟨rfl, rfl⟩

/-- Witness for C10: a record with a NaN size and an extra field is
accepted wholesale, and a drawn size of -5 passes straight into the
drawn rectangle. -/
theorem settingsImport_acceptsAnyNumberSize_witness :
    jsTruthyOpt (jget settingsNanSize "color") = true ∧
    jsTypeofOpt (jget settingsNanSize "size") = "number" ∧
    handleSettingsFileChange initialSettingsState (some settingsNanSize)
        = { initialSettingsState with customization := settingsNanSize } ∧
    (replaceDrawRect ⟨50, 50, 100, 100⟩ (-5)).width = -5 := by
  have key := settingsImport_acceptsAnyNumberSize initialSettingsState settingsNanSize
    (by decide) (by decide) (by decide)
  exact ⟨by decide, by decide, key.1, (key.2 ⟨50, 50, 100, 100⟩ (-5)).1⟩

/-! ### Replacement output page assembly -/

/-- C8 (code bug): the first page of the assembled output document is
created from the page dimensions stored in the marker being replaced,
not from the first original page: for a marker found on the 800 x 600
second page of a document whose first page is 600 x 800, the first
output page is 800 x 600 landscape while the original first page is
600 x 800 portrait. -/
theorem replaceOutput_firstPage_usesMarkerPage :
    replaceOutputPageSpecs qrOnPage2 twoPageViewports
      = [⟨800, 600, Orientation.landscape⟩, ⟨800, 600, Orientation.landscape⟩]
    ∧ originalPageSpecs twoPageViewports
      = [⟨600, 800, Orientation.portrait⟩, ⟨800, 600, Orientation.landscape⟩]
    ∧ (replaceOutputPageSpecs qrOnPage2 twoPageViewports).head?
        ≠ (originalPageSpecs twoPageViewports).head? := by
  refine ⟨rfl, rfl, ?_⟩
  intro hcon
  have h1 : (replaceOutputPageSpecs qrOnPage2 twoPageViewports).head?
      = some ⟨800, 600, Orientation.landscape⟩ := rfl
  have h2 : (originalPageSpecs twoPageViewports).head?
      = some ⟨600, 800, Orientation.portrait⟩ := rfl
  rw [h1, h2] at hcon
  have h3 : (⟨800, 600, Orientation.landscape⟩ : PageSpec)
      = ⟨600, 800, Orientation.portrait⟩ := Option.some.inj hcon
  have h4 : (800 : ℚ) = 600 := congrArg PageSpec.width h3
  norm_num at h4

end QrPdf
